import Mathlib

/-!
Shallow embedding of the PLGN registry proxy (src/proxy/main.py) and
verification of its specification claims.

The embedding models the two pure-ish components (`check_rate_limit`,
`verify_plgn_client`) directly over explicit state, and the
`publish_pack` route as a deterministic function of an environment record
that fixes the outcome of every external call (base64 decode, GitHub
release creation, asset upload, registry read/write).  SHA-256
(`hashlib.sha256(...).hexdigest()`) is an external library primitive and
is modelled as a hash-function parameter of the environment.
-/

namespace PlgnProxy

/-! ### String helpers (Python `in` and `.lower()` over char lists) -/

/-- Whether the second list occurs at the head of the first. -/
def startsWith : List Char → List Char → Bool
  | _, [] => true
  | [], _ :: _ => false
  | a :: as, b :: bs => (a == b) && startsWith as bs

/-- The Python substring test `needle in hay`, over char lists. -/
def containsSub : List Char → List Char → Bool
  | [], needle => needle.isEmpty
  | a :: t, needle => startsWith (a :: t) needle || containsSub t needle

/-- Python `s.lower()`, as a char list (ASCII lowering, as in the user-agent
and error-message checks of the source). -/
def lowerStr (s : String) : List Char :=
  s.toList.map Char.toLower

/-! ### Sliding-window rate limiter (`check_rate_limit`, main.py:62-85)

The Modal `rate_limit_store` dict is modelled as a total map from string
keys to timestamp lists, with `[]` as the default value
(`rate_limit_store.get(key, [])`). -/

abbrev RateStore := String → List Int

/-- The store key, ip and endpoint joined by a colon (main.py:67). -/
def rateKey (ip endpoint : String) : String := ip ++ ":" ++ endpoint

/-- The filter `ts > window_start` over the stored timestamps, with
`window_start = now - window` (main.py:69,75). -/
def inWindow (now window : Int) (timestamps : List Int) : List Int :=
  timestamps.filter (fun ts => decide (now - window < ts))

/-- The function `check_rate_limit(ip, endpoint, limit, window)`
(main.py:62-85); `now` stands for `int(time.time())`.  The result pairs
the returned Bool with the store after the call. -/
def checkRateLimit (store : RateStore) (ip endpoint : String)
    (limit : Nat) (window now : Int) : Bool × RateStore :=
  let key := rateKey ip endpoint
  let timestamps := inWindow now window (store key)
  if limit ≤ timestamps.length then
    (false, store)
  else
    (true, fun k => if k = key then timestamps ++ [now] else store k)

/-- Iterated calls to `check_rate_limit` for the same key, all at
time `now`. -/
def repeatCalls (store : RateStore) (ip endpoint : String)
    (limit : Nat) (window now : Int) : Nat → RateStore
  | 0 => store
  | k + 1 =>
      (checkRateLimit (repeatCalls store ip endpoint limit window now k)
        ip endpoint limit window now).2

/-! ### Client identity verifier (`verify_plgn_client`, main.py:88-97) -/

/-- The function `verify_plgn_client(user_agent)`: the Python guard
`if not user_agent` treats both `None` and `""` as falsy; otherwise a
case-insensitive substring check for either client marker. -/
def verify_plgn_client (userAgent : Option String) : Bool :=
  match userAgent with
  | none => false
  | some ua =>
      if ua = "" then false
      else
        containsSub (lowerStr ua) "plgn/".toList ||
        containsSub (lowerStr ua) "plgn-cli".toList

/-! ### Registry entries and the upsert of `publish_pack` (main.py:393-414) -/

/-- One entry of `registry.json`, with the fields `publish_pack` writes
(main.py:394-403). -/
structure RegistryEntry where
  name : String
  version : String
  languages : List String
  description : String
  downloadUrl : String
  checksum : String
  publishedAt : String
  author : String
deriving DecidableEq

/-- The match predicate of the duplicate check
`e.get("name") == req.name and e.get("version") == req.version`
(main.py:407). -/
def entryMatches (name version : String) (e : RegistryEntry) : Bool :=
  e.name == name && e.version == version

/-- The Python idiom `next((i for i, e in enumerate(l) if p e), None)`:
index of the first element satisfying `p`. -/
def firstMatchIdx {α : Type} (p : α → Bool) : List α → Option Nat
  | [] => none
  | a :: t => if p a then some 0 else (firstMatchIdx p t).map (· + 1)

/-- In-place assignment `l[i] = v` at a valid index. -/
def setAt {α : Type} : List α → Nat → α → List α
  | [], _, _ => []
  | _ :: t, 0, v => v :: t
  | a :: t, n + 1, v => a :: setAt t n v

/-- The index update of `publish_pack` (main.py:405-414): replace the first
entry with the same (name, version) in place, else append. -/
def upsertEntry (entries : List RegistryEntry) (ne : RegistryEntry) :
    List RegistryEntry :=
  match firstMatchIdx (entryMatches ne.name ne.version) entries with
  | some i => setAt entries i ne
  | none => entries ++ [ne]

/-! ### Publish orchestrator (`publish_pack`, main.py:294-446)

External calls are resolved by a `PublishEnv` record; the orchestrator is
then a deterministic function returning the HTTP-level outcome, the
rate-limit store after the call, and the trace of external write actions
performed against GitHub. -/

/-- Outcome of `repo.create_git_release` (main.py:340-349): either a
release (its html url and upload url) or a raised exception message. -/
inductive CreateReleaseOutcome where
  | ok (htmlUrl uploadUrl : String)
  | exn (msg : String)
deriving DecidableEq

/-- Environment fixing the outcome of every external interaction of one
`publish_pack` request.  `hash` models `hashlib.sha256(...).hexdigest()`
as a function of the decoded tarball bytes; `decodeResult` the outcome of
`base64.b64decode`; `deleteReleaseFails` whether the rollback
`release.delete_release()` raises; `readResult` the registry contents and
sha from `repo.get_contents` (`none` when that read raises);
`writeExn` a raised exception of `update_file`/`create_file`. -/
structure PublishEnv where
  userAgent : Option String
  clientIp : String
  now : Int
  hash : List Nat → String
  decodeResult : Option (List Nat)
  githubToken : Option String
  createResult : CreateReleaseOutcome
  uploadAssetExn : Option String
  postStatus : Nat
  postText : String
  postDownloadUrl : String
  deleteReleaseFails : Bool
  readResult : Option (List RegistryEntry × String)
  writeExn : Option String
  publishedAt : String

/-- External write/read actions of one `publish_pack` run, in order. -/
inductive Action where
  | createRelease (tag title message : String)
  | uploadAsset (filename : String)
  | postAsset (bytes : List Nat)
  | deleteRelease
  | readIndex
  | writeIndex (entries : List RegistryEntry) (message : String)
deriving DecidableEq

/-- The distinct failure outcomes of `publish_pack`, one per
`HTTPException` raise site of the route (each with its own literal detail
prefix, so the variants are distinguishable at the HTTP boundary). -/
inductive PublishError where
  | invalidClient
  | rateLimited
  | invalidBase64
  | serverConfig
  | releaseConflict (tag : String)
  | assetUploadFailed (msg : String)
  | indexUpdateFailed (msg : String)
  | publishFailed (msg : String)
deriving DecidableEq

/-- HTTP status code of each raise site (main.py:308,312,324,332,348,380,433,446). -/
def PublishError.httpStatus : PublishError → Nat
  | .invalidClient => 403
  | .rateLimited => 429
  | .invalidBase64 => 400
  | .serverConfig => 500
  | .releaseConflict _ => 409
  | .assetUploadFailed _ => 500
  | .indexUpdateFailed _ => 500
  | .publishFailed _ => 500

/-- The `detail` string of each raise site. -/
def PublishError.detail : PublishError → String
  | .invalidClient => "Invalid client"
  | .rateLimited => "Rate limit exceeded (10 publishes/hour)"
  | .invalidBase64 => "Invalid base64 tarball"
  | .serverConfig => "Server configuration error"
  | .releaseConflict tag => "Release " ++ tag ++ " already exists"
  | .assetUploadFailed m => "Failed to upload asset: " ++ m
  | .indexUpdateFailed m => "Failed to update registry: " ++ m
  | .publishFailed m => "Publish failed: " ++ m

/-- The success body of `publish_pack` (main.py:435-441). -/
structure PublishResponse where
  status : String
  url : String
  version : String
  checksum : String
  downloadUrl : String
deriving DecidableEq

/-- The release tag, name and version joined by an at sign (main.py:338). -/
def tagOf (name version : String) : String := name ++ "@" ++ version

/-- The release message of main.py:343. -/
def releaseNotes (name version checksum author : String) : String :=
  "Pack release for " ++ name ++ " v" ++ version ++
    "\n\nChecksum (SHA256): `" ++ checksum ++ "`\nAuthor: " ++ author

/-- The duplicate-tag test of main.py:347:
`"already_exists" in str(e).lower() or "already exists" in str(e).lower()`. -/
def isAlreadyExistsMsg (msg : String) : Bool :=
  containsSub (lowerStr msg) "already_exists".toList ||
  containsSub (lowerStr msg) "already exists".toList

/-- The request body of the publish route (`PublishPackRequest`). -/
structure PublishRequest where
  name : String
  version : String
  languages : List String
  description : String
  author : String
deriving DecidableEq

/-- The route `publish_pack` (main.py:294-446): verification, rate limiting, decode,
checksum, release creation, asset upload with release rollback on
failure, registry index upsert, success response.  Returns the outcome,
the rate-limit store after the call, and the ordered trace of external
GitHub actions. -/
def publishPack (env : PublishEnv) (req : PublishRequest) (store : RateStore) :
    Except PublishError PublishResponse × RateStore × List Action :=
  if verify_plgn_client env.userAgent = false then
    (.error .invalidClient, store, [])
  else
    let rl := checkRateLimit store env.clientIp "registry_publish" 10 3600 env.now
    if rl.1 = false then
      (.error .rateLimited, rl.2, [])
    else
      match env.decodeResult with
      | none => (.error .invalidBase64, rl.2, [])
      | some tarballBytes =>
        let checksum := env.hash tarballBytes
        match env.githubToken with
        | none => (.error .serverConfig, rl.2, [])
        | some _ =>
          let tag := tagOf req.name req.version
          let acts0 := [Action.createRelease tag (req.name ++ " v" ++ req.version)
            (releaseNotes req.name req.version checksum req.author)]
          match env.createResult with
          | .exn msg =>
            if isAlreadyExistsMsg msg then
              (.error (.releaseConflict tag), rl.2, acts0)
            else
              (.error (.publishFailed msg), rl.2, acts0)
          | .ok htmlUrl _uploadUrl =>
            let filename := req.name ++ "-" ++ req.version ++ ".tgz"
            match env.uploadAssetExn with
            | some m =>
              (.error (.assetUploadFailed m), rl.2,
                acts0 ++ [Action.uploadAsset filename, Action.deleteRelease])
            | none =>
              let acts1 := acts0 ++ [Action.uploadAsset filename, Action.postAsset tarballBytes]
              if env.postStatus = 200 ∨ env.postStatus = 201 then
                let downloadUrl := env.postDownloadUrl
                let entries :=
                  match env.readResult with
                  | some (es, _) => es
                  | none => []
                let newEntry : RegistryEntry :=
                  { name := req.name, version := req.version,
                    languages := req.languages, description := req.description,
                    downloadUrl := downloadUrl, checksum := checksum,
                    publishedAt := env.publishedAt, author := req.author }
                let entries' := upsertEntry entries newEntry
                let acts2 := acts1 ++ [Action.readIndex]
                match env.writeExn with
                | some m => (.error (.indexUpdateFailed m), rl.2, acts2)
                | none =>
                  (.ok { status := "success", url := htmlUrl, version := req.version,
                         checksum := checksum, downloadUrl := downloadUrl },
                    rl.2,
                    acts2 ++ [Action.writeIndex entries' ("Publish " ++ tag)])
              else
                (.error (.assetUploadFailed ("Asset upload failed: " ++ env.postText)),
                  rl.2, acts1 ++ [Action.deleteRelease])

/-- Derived view of the asset-upload step (main.py:353-373): `some e` when
the step raises with message `e`, `none` when it succeeds. -/
def uploadFailMsg (env : PublishEnv) : Option String :=
  match env.uploadAssetExn with
  | some m => some m
  | none =>
    if env.postStatus = 200 ∨ env.postStatus = 201 then none
    else some ("Asset upload failed: " ++ env.postText)

/-! ### Concrete instances used to exercise the theorems -/

/-- A store with no recorded events. -/
def emptyRateStore : RateStore := fun _ => []

/-- A store whose log for the publish key holds a stale (out-of-window at
`now = 100`, `window = 10`) timestamp `0` next to a fresh one. -/
def staleStore : RateStore :=
  fun k => if k = "1.2.3.4:registry_publish" then [0, 100] else []

/-- A registry entry for foo@1.0.0, first publish. -/
def fooOld : RegistryEntry :=
  { name := "foo", version := "1.0.0", languages := ["python"],
    description := "first", downloadUrl := "u1", checksum := "c1",
    publishedAt := "t1", author := "a" }

/-- A registry entry for foo@1.0.0, second publish (different fields). -/
def fooNew : RegistryEntry :=
  { name := "foo", version := "1.0.0", languages := ["python"],
    description := "second", downloadUrl := "u2", checksum := "c2",
    publishedAt := "t2", author := "a" }

/-- A registry entry for foo@2.0.0. -/
def fooV2 : RegistryEntry :=
  { name := "foo", version := "2.0.0", languages := ["python"],
    description := "next", downloadUrl := "u3", checksum := "c3",
    publishedAt := "t3", author := "a" }

/-- A publish request for demo@1.0.0. -/
def sampleReq : PublishRequest :=
  { name := "demo", version := "1.0.0", languages := ["python"],
    description := "d", author := "community" }

/-- A baseline environment for a fully successful publish. -/
def sampleEnv : PublishEnv :=
  { userAgent := some "plgn-cli/1.0"
    clientIp := "1.2.3.4"
    now := 1000
    hash := fun _ => "deadbeef"
    decodeResult := some [1, 2, 3, 4, 5]
    githubToken := some "t"
    createResult := .ok "https://rel" "https://up"
    uploadAssetExn := none
    postStatus := 201
    postText := ""
    postDownloadUrl := "https://dl"
    deleteReleaseFails := false
    readResult := none
    writeExn := none
    publishedAt := "2026-01-01T00:00:00Z" }

/-! ### Helper lemmas: strings -/

theorem toList_append (s t : String) : (s ++ t).toList = s.toList ++ t.toList := rfl

theorem startsWith_nil (hay : List Char) : startsWith hay [] = true := by
  cases hay <;> rfl

theorem startsWith_refl_append (n rest : List Char) :
    startsWith (n ++ rest) n = true := by
  induction n with
  | nil => simpa using startsWith_nil rest
  | cons a t ih => simp [startsWith, ih]

theorem containsSub_of_startsWith (hay n : List Char)
    (h : startsWith hay n = true) : containsSub hay n = true := by
  cases hay with
  | nil =>
    cases n with
    | nil => rfl
    | cons b bs => simp [startsWith] at h
  | cons a t => simp [containsSub, h]

theorem containsSub_append (pre n post : List Char) :
    containsSub (pre ++ (n ++ post)) n = true := by
  induction pre with
  | nil => exact containsSub_of_startsWith _ _ (startsWith_refl_append n post)
  | cons a t ih => simp [containsSub, ih]

/-! ### Helper lemmas: rate limiter -/

theorem crl_allowed_iff (s : RateStore) (ip ep : String) (lim : Nat) (win now : Int) :
    (checkRateLimit s ip ep lim win now).1 = true ↔
      (inWindow now win (s (rateKey ip ep))).length < lim := by
  simp only [checkRateLimit]
  split
  next h => exact iff_of_false (by simp) (Nat.not_lt.mpr h)
  next h => exact iff_of_true rfl (Nat.lt_of_not_le h)

theorem crl_store_of_allowed (s : RateStore) (ip ep : String) (lim : Nat) (win now : Int)
    (h : (checkRateLimit s ip ep lim win now).1 = true) :
    (checkRateLimit s ip ep lim win now).2 (rateKey ip ep) =
      inWindow now win (s (rateKey ip ep)) ++ [now] := by
  have hlt := (crl_allowed_iff s ip ep lim win now).mp h
  simp only [checkRateLimit]
  rw [if_neg (Nat.not_le.mpr hlt)]
  simp

theorem crl_store_of_rejected (s : RateStore) (ip ep : String) (lim : Nat) (win now : Int)
    (h : (checkRateLimit s ip ep lim win now).1 = false) :
    (checkRateLimit s ip ep lim win now).2 = s := by
  have hge : ¬ (inWindow now win (s (rateKey ip ep))).length < lim := by
    intro hlt
    rw [(crl_allowed_iff s ip ep lim win now).mpr hlt] at h
    exact Bool.noConfusion h
  simp only [checkRateLimit]
  rw [if_pos (Nat.le_of_not_lt hge)]

theorem inWindow_self_filter (now win : Int) (l : List Int) :
    inWindow now win (inWindow now win l) = inWindow now win l := by
  apply List.filter_eq_self.mpr
  intro a ha
  exact (List.mem_filter.mp ha).2

theorem inWindow_replicate (now win : Int) (k : Nat) (hw : 0 < win) :
    inWindow now win (List.replicate k now) = List.replicate k now := by
  simp only [inWindow, List.filter_replicate]
  have : now - win < now := by omega
  simp [this]

theorem repeatCalls_log (s : RateStore) (ip ep : String) (lim : Nat) (win now : Int)
    (hw : 0 < win) (h0 : s (rateKey ip ep) = []) :
    ∀ k, k ≤ lim →
      repeatCalls s ip ep lim win now k (rateKey ip ep) = List.replicate k now := by
  intro k
  induction k with
  | zero => intro _; simpa [repeatCalls] using h0
  | succ k ih =>
    intro hk
    have hlog := ih (Nat.le_of_succ_le hk)
    have hall : (checkRateLimit (repeatCalls s ip ep lim win now k) ip ep lim win now).1 = true := by
      rw [crl_allowed_iff, hlog, inWindow_replicate now win k hw, List.length_replicate]
      omega
    show (checkRateLimit (repeatCalls s ip ep lim win now k) ip ep lim win now).2 (rateKey ip ep) = _
    rw [crl_store_of_allowed _ _ _ _ _ _ hall, hlog, inWindow_replicate now win k hw,
      ← List.replicate_succ']

/-! ### Helper lemmas: registry upsert -/

theorem entryMatches_self (ne : RegistryEntry) :
    entryMatches ne.name ne.version ne = true := by
  simp [entryMatches]

theorem firstMatchIdx_some {α : Type} (p : α → Bool) :
    ∀ (l : List α) (i : Nat), firstMatchIdx p l = some i →
      ∃ e, l[i]? = some e ∧ p e = true := by
  intro l
  induction l with
  | nil => intro i h; simp [firstMatchIdx] at h
  | cons a t ih =>
    intro i h
    by_cases hp : p a
    · simp [firstMatchIdx, hp] at h
      subst h
      exact ⟨a, by simp, hp⟩
    · simp [firstMatchIdx, hp] at h
      obtain ⟨j, hj, rfl⟩ := h
      obtain ⟨e, he, hpe⟩ := ih j hj
      exact ⟨e, by simpa using he, hpe⟩

theorem length_setAt {α : Type} : ∀ (l : List α) (i : Nat) (v : α),
    (setAt l i v).length = l.length
  | [], _, _ => rfl
  | _ :: _, 0, _ => rfl
  | _ :: t, n + 1, v => by simp [setAt, length_setAt t n v]

theorem getElem?_setAt_self {α : Type} : ∀ (l : List α) (i : Nat) (v : α),
    i < l.length → (setAt l i v)[i]? = some v
  | [], i, _ => by intro h; simp at h
  | _ :: _, 0, _ => by intro _; simp [setAt]
  | _ :: t, n + 1, v => by
    intro h
    simpa [setAt] using getElem?_setAt_self t n v (by simpa using h)

theorem getElem?_setAt_ne {α : Type} : ∀ (l : List α) (i j : Nat) (v : α),
    j ≠ i → (setAt l i v)[j]? = l[j]?
  | [], _, _, _ => by intro _; simp [setAt]
  | _ :: _, 0, 0, _ => by intro h; exact absurd rfl h
  | _ :: _, 0, j + 1, _ => by intro _; simp [setAt]
  | _ :: _, i + 1, 0, _ => by intro _; simp [setAt]
  | a :: t, i + 1, j + 1, v => by
    intro h
    simpa [setAt] using getElem?_setAt_ne t i j v (fun hji => h (by omega))

theorem countP_setAt (p : RegistryEntry → Bool) :
    ∀ (l : List RegistryEntry) (i : Nat) (v : RegistryEntry),
      (∃ e, l[i]? = some e ∧ p e = true) → p v = true →
      (setAt l i v).countP p = l.countP p
  | [], i, v => by intro h _; obtain ⟨e, he, _⟩ := h; simp at he
  | a :: t, 0, v => by
    intro h hv
    obtain ⟨e, he, hpe⟩ := h
    simp only [List.getElem?_cons_zero, Option.some.injEq] at he
    subst he
    simp [setAt, List.countP_cons, hv, hpe]
  | a :: t, i + 1, v => by
    intro h hv
    obtain ⟨e, he, hpe⟩ := h
    simp only [List.getElem?_cons_succ] at he
    simp [setAt, List.countP_cons, countP_setAt p t i v ⟨e, he, hpe⟩ hv]

theorem setAt_matches_unique (p : RegistryEntry → Bool) :
    ∀ (l : List RegistryEntry) (i : Nat) (v : RegistryEntry),
      l.countP p ≤ 1 → (∃ e, l[i]? = some e ∧ p e = true) → p v = true →
      ∀ x ∈ setAt l i v, p x = true → x = v
  | [], i, v => by intro _ h _; obtain ⟨e, he, _⟩ := h; simp at he
  | a :: t, 0, v => by
    intro hu h hv x hx hpx
    obtain ⟨e, he, hpe⟩ := h
    simp only [List.getElem?_cons_zero, Option.some.injEq] at he
    subst he
    simp only [setAt, List.mem_cons] at hx
    rcases hx with rfl | hx
    · rfl
    · exfalso
      have h1 : 0 < t.countP p := List.countP_pos_iff.mpr ⟨x, hx, hpx⟩
      have : (a :: t).countP p = t.countP p + 1 := by simp [List.countP_cons, hpe]
      omega
  | a :: t, i + 1, v => by
    intro hu h hv x hx hpx
    obtain ⟨e, he, hpe⟩ := h
    simp only [List.getElem?_cons_succ] at he
    have hmem : e ∈ t := List.getElem?_mem he
    have h1 : 0 < t.countP p := List.countP_pos_iff.mpr ⟨e, hmem, hpe⟩
    have hpa : p a = false := by
      by_contra hpa
      have hpa' : p a = true := by
        cases hpab : p a with
        | true => rfl
        | false => exact absurd hpab hpa
      have : (a :: t).countP p = t.countP p + 1 := by simp [List.countP_cons, hpa']
      omega
    have hut : t.countP p ≤ 1 := by
      have : (a :: t).countP p = t.countP p := by simp [List.countP_cons, hpa]
      omega
    simp only [setAt, List.mem_cons] at hx
    rcases hx with rfl | hx
    · rw [hpa] at hpx; exact absurd hpx (by simp)
    · exact setAt_matches_unique p t i v hut ⟨e, he, hpe⟩ hv x hx hpx

theorem self_mem_upsert (entries : List RegistryEntry) (ne : RegistryEntry) :
    ne ∈ upsertEntry entries ne := by
  unfold upsertEntry
  cases h : firstMatchIdx (entryMatches ne.name ne.version) entries with
  | none => simp
  | some i =>
    obtain ⟨e, he, _⟩ := firstMatchIdx_some _ entries i h
    have hi : i < entries.length := by
      by_contra hlt
      rw [List.getElem?_eq_none (by omega)] at he
      exact Option.noConfusion he
    exact List.getElem?_mem (getElem?_setAt_self entries i ne hi)

theorem inWindow_append (now win : Int) (l l' : List Int) :
    inWindow now win (l ++ l') = inWindow now win l ++ inWindow now win l' := by
  simp [inWindow, List.filter_append]

theorem inWindow_singleton_now (now win : Int) (hw : 0 < win) :
    inWindow now win [now] = [now] := by
  have h : now - win < now := by omega
  simp [inWindow, h]

/-! ## Claim theorems -/

/-- C1: `check_rate_limit` allows a request iff the number of stored
timestamps for the key that lie within the trailing window, counted
before adding the current timestamp, is strictly less than `limit`; on
allow the current timestamp is appended, so the stored in-window count
after an allowed call never exceeds `limit`; after exactly `limit`
allowed calls for a fresh key the next immediate call is rejected, and a
call made after the window has elapsed past the first event is allowed
again. -/
theorem C1_rate_limit_decision (store : RateStore) (ip ep : String)
    (limit : Nat) (window now : Int) :
    ((checkRateLimit store ip ep limit window now).1 = true ↔
      (inWindow now window (store (rateKey ip ep))).length < limit) ∧
    ((checkRateLimit store ip ep limit window now).1 = true →
      (checkRateLimit store ip ep limit window now).2 (rateKey ip ep) =
        inWindow now window (store (rateKey ip ep)) ++ [now]) ∧
    (0 < window → (checkRateLimit store ip ep limit window now).1 = true →
      (inWindow now window
        ((checkRateLimit store ip ep limit window now).2 (rateKey ip ep))).length ≤ limit) ∧
    (0 < window → store (rateKey ip ep) = [] →
      ((∀ k, k < limit →
          (checkRateLimit (repeatCalls store ip ep limit window now k)
            ip ep limit window now).1 = true) ∧
       (checkRateLimit (repeatCalls store ip ep limit window now limit)
         ip ep limit window now).1 = false ∧
       (0 < limit → ∀ t', now + window < t' →
          (checkRateLimit (repeatCalls store ip ep limit window now limit)
            ip ep limit window t').1 = true))) := by
  refine ⟨crl_allowed_iff store ip ep limit window now,
    crl_store_of_allowed store ip ep limit window now, ?_, ?_⟩
  · intro hw h
    rw [crl_store_of_allowed store ip ep limit window now h, inWindow_append,
      inWindow_self_filter, inWindow_singleton_now now window hw]
    have hlt := (crl_allowed_iff store ip ep limit window now).mp h
    simp only [List.length_append, List.length_cons, List.length_nil]
    omega
  · intro hw h0
    refine ⟨?_, ?_, ?_⟩
    · intro k hk
      rw [crl_allowed_iff,
        repeatCalls_log store ip ep limit window now hw h0 k (Nat.le_of_lt hk),
        inWindow_replicate now window k hw, List.length_replicate]
      exact hk
    · have hlog := repeatCalls_log store ip ep limit window now hw h0 limit Nat.le.refl
      cases hb : (checkRateLimit (repeatCalls store ip ep limit window now limit)
          ip ep limit window now).1 with
      | false => rfl
      | true =>
        exfalso
        have := (crl_allowed_iff _ ip ep limit window now).mp hb
        rw [hlog, inWindow_replicate now window limit hw, List.length_replicate] at this
        omega
    · intro hl t' ht'
      rw [crl_allowed_iff, repeatCalls_log store ip ep limit window now hw h0 limit Nat.le.refl]
      have hdrop : inWindow t' window (List.replicate limit now) = [] := by
        have h : ¬ (t' - window < now) := by omega
        simp [inWindow, List.filter_replicate, h]
      rw [hdrop]
      simpa using hl

/-- Witness for C1 at concrete inputs: with an empty store, key
(1.2.3.4, registry_publish), limit 2, window 3600, both calls at time
1000 are allowed, the third immediate call is rejected, and a call at
time 5000 (past the window) is allowed again. -/
theorem C1_rate_limit_decision_witness :
    (checkRateLimit emptyRateStore "1.2.3.4" "registry_publish" 2 3600 1000).1 = true ∧
    (checkRateLimit (repeatCalls emptyRateStore "1.2.3.4" "registry_publish" 2 3600 1000 2)
      "1.2.3.4" "registry_publish" 2 3600 1000).1 = false ∧
    (checkRateLimit (repeatCalls emptyRateStore "1.2.3.4" "registry_publish" 2 3600 1000 2)
      "1.2.3.4" "registry_publish" 2 3600 5000).1 = true := by
  have h := C1_rate_limit_decision emptyRateStore "1.2.3.4" "registry_publish" 2 3600 1000
  have hd := h.2.2.2 (by decide) rfl
  exact ⟨h.1.mpr (by decide), hd.2.1, hd.2.2 (by decide) 5000 (by decide)⟩

/-- C5 counterexample: the claim says the persisted log is filtered to
the in-window subset on every call, allowed or rejected.  At the concrete
store whose log for the key holds the stale timestamp 0 and the fresh
timestamp 100, the call at time 100 with limit 1 and window 10 is
rejected and the persisted log still holds 0, which is outside the
window. -/
theorem C5_pruning_counterexample :
    (checkRateLimit staleStore "1.2.3.4" "registry_publish" 1 10 100).1 = false ∧
    ¬ (∀ ts ∈ (checkRateLimit staleStore "1.2.3.4" "registry_publish" 1 10 100).2
        (rateKey "1.2.3.4" "registry_publish"), (100 : Int) - 10 < ts) := by
  exact ⟨by decide, by decide⟩

/-- C5 amended: the in-memory log is filtered to the in-window subset on
every call, but the filtered log is persisted only when the call is
allowed: after an allowed call the stored log for the key is the filtered
entries plus the current timestamp (all within the window when the window
is positive); after a rejected call the persisted store is unchanged. -/
theorem C5_pruning_on_allowed (store : RateStore) (ip ep : String)
    (limit : Nat) (window now : Int) :
    ((checkRateLimit store ip ep limit window now).1 = true →
      (checkRateLimit store ip ep limit window now).2 (rateKey ip ep) =
        inWindow now window (store (rateKey ip ep)) ++ [now] ∧
      (0 < window → ∀ ts ∈ (checkRateLimit store ip ep limit window now).2 (rateKey ip ep),
        now - window < ts)) ∧
    ((checkRateLimit store ip ep limit window now).1 = false →
      (checkRateLimit store ip ep limit window now).2 = store) := by
  refine ⟨?_, crl_store_of_rejected store ip ep limit window now⟩
  intro h
  refine ⟨crl_store_of_allowed store ip ep limit window now h, ?_⟩
  intro hw ts hts
  rw [crl_store_of_allowed store ip ep limit window now h] at hts
  rcases List.mem_append.mp hts with hl | hr
  · exact of_decide_eq_true (List.mem_filter.mp hl).2
  · have : ts = now := by simpa using hr
    omega

/-- Witness for C5 amended: an allowed call at time 100, window 10,
limit 5 on the stale store prunes the stale timestamp 0 from the
persisted log and appends 100. -/
theorem C5_pruning_on_allowed_witness :
    (checkRateLimit staleStore "1.2.3.4" "registry_publish" 5 10 100).1 = true ∧
    (checkRateLimit staleStore "1.2.3.4" "registry_publish" 5 10 100).2
      (rateKey "1.2.3.4" "registry_publish") = [100, 100] := by
  have h := (C5_pruning_on_allowed staleStore "1.2.3.4" "registry_publish" 5 10 100).1
    (by decide)
  exact ⟨by decide, h.1.trans (by decide)⟩

/-- C10: when `check_rate_limit` rejects a request, the persisted store
is left completely unchanged: no timestamp is appended and the pruned log
is not written back (so stale out-of-window entries remain persisted, as
the witness shows). -/
theorem C10_rejected_leaves_store (store : RateStore) (ip ep : String)
    (limit : Nat) (window now : Int)
    (h : (checkRateLimit store ip ep limit window now).1 = false) :
    (checkRateLimit store ip ep limit window now).2 = store ∧
    ∀ k, (checkRateLimit store ip ep limit window now).2 k = store k := by
  have he := crl_store_of_rejected store ip ep limit window now h
  exact ⟨he, fun k => by rw [he]⟩

/-- Witness for C10: the rejected call at time 100 leaves the stale log
[0, 100], including the out-of-window entry 0, in the persisted store. -/
theorem C10_rejected_leaves_store_witness :
    (checkRateLimit staleStore "1.2.3.4" "registry_publish" 1 10 100).1 = false ∧
    (checkRateLimit staleStore "1.2.3.4" "registry_publish" 1 10 100).2
      "1.2.3.4:registry_publish" = [0, 100] := by
  have h1 : (checkRateLimit staleStore "1.2.3.4" "registry_publish" 1 10 100).1 = false := by
    decide
  have h2 := C10_rejected_leaves_store staleStore "1.2.3.4" "registry_publish" 1 10 100 h1
  exact ⟨h1, (h2.2 "1.2.3.4:registry_publish").trans (by decide)⟩

/-- C8: `verify_plgn_client` returns false for an absent or empty
identification string, and otherwise returns true iff a case-insensitive
substring match finds either of the two known client markers; in
particular it rejects `None` and `""` and `curl/7.0` and accepts
`PLGN-CLI/1.0`. -/
theorem C8_verify_client :
    verify_plgn_client none = false ∧
    verify_plgn_client (some "") = false ∧
    (∀ ua : String, ua ≠ "" →
      verify_plgn_client (some ua) =
        (containsSub (lowerStr ua) "plgn/".toList ||
         containsSub (lowerStr ua) "plgn-cli".toList)) ∧
    verify_plgn_client (some "PLGN-CLI/1.0") = true ∧
    verify_plgn_client (some "curl/7.0") = false := by
  refine ⟨rfl, rfl, ?_, by decide, by decide⟩
  intro ua h
  simp [verify_plgn_client, h]

/-- Witness for C8 at a concrete non-empty string. -/
theorem C8_verify_client_witness :
    verify_plgn_client (some "curl/7.0") =
      (containsSub (lowerStr "curl/7.0") "plgn/".toList ||
       containsSub (lowerStr "curl/7.0") "plgn-cli".toList) :=
  C8_verify_client.2.2.1 "curl/7.0" (by decide)

/-- C2: publishing (name, version) into a registry index that satisfies
the uniqueness invariant (at most one entry for the pair): when an entry
with the same name and version exists, the new entry replaces it at the
same array position (other positions unchanged, length unchanged) and
the resulting index has exactly one entry for the pair, with the later
fields of the later publish winning; when no such entry exists, the new entry is
appended and no existing entry is removed or replaced. -/
theorem C2_upsert_unique (entries : List RegistryEntry) (ne : RegistryEntry)
    (huniq : entries.countP (entryMatches ne.name ne.version) ≤ 1) :
    (∀ i, firstMatchIdx (entryMatches ne.name ne.version) entries = some i →
      upsertEntry entries ne = setAt entries i ne ∧
      (upsertEntry entries ne).length = entries.length ∧
      (upsertEntry entries ne)[i]? = some ne ∧
      (∀ j, j ≠ i → (upsertEntry entries ne)[j]? = entries[j]?) ∧
      (upsertEntry entries ne).countP (entryMatches ne.name ne.version) = 1 ∧
      (∀ e ∈ upsertEntry entries ne, entryMatches ne.name ne.version e = true → e = ne)) ∧
    (firstMatchIdx (entryMatches ne.name ne.version) entries = none →
      upsertEntry entries ne = entries ++ [ne]) := by
  constructor
  · intro i hi
    have hup : upsertEntry entries ne = setAt entries i ne := by
      simp [upsertEntry, hi]
    obtain ⟨e, he, hpe⟩ := firstMatchIdx_some _ entries i hi
    have hex : ∃ e, entries[i]? = some e ∧ entryMatches ne.name ne.version e = true :=
      ⟨e, he, hpe⟩
    have hlt : i < entries.length := by
      by_contra hlt
      rw [List.getElem?_eq_none (by omega)] at he
      exact Option.noConfusion he
    have hself := entryMatches_self ne
    refine ⟨hup, ?_, ?_, ?_, ?_, ?_⟩
    · rw [hup]; exact length_setAt entries i ne
    · rw [hup]; exact getElem?_setAt_self entries i ne hlt
    · intro j hj; rw [hup]; exact getElem?_setAt_ne entries i j ne hj
    · rw [hup, countP_setAt _ entries i ne hex hself]
      have h1 : 0 < entries.countP (entryMatches ne.name ne.version) :=
        List.countP_pos_iff.mpr ⟨e, List.getElem?_mem he, hpe⟩
      omega
    · intro x hx hpx
      rw [hup] at hx
      exact setAt_matches_unique _ entries i ne huniq hex hself x hx hpx
  · intro hnone
    simp [upsertEntry, hnone]

/-- Witness for C2: republishing foo@1.0.0 replaces the old entry in
place leaving exactly one entry for the pair; publishing foo@2.0.0
appends instead of replacing. -/
theorem C2_upsert_unique_witness :
    upsertEntry [fooOld] fooNew = [fooNew] ∧
    (upsertEntry [fooOld] fooNew).countP (entryMatches "foo" "1.0.0") = 1 ∧
    upsertEntry [fooOld] fooV2 = [fooOld, fooV2] := by
  have h1 := (C2_upsert_unique [fooOld] fooNew (by decide)).1 0 (by decide)
  have h2 := (C2_upsert_unique [fooOld] fooV2 (by decide)).2 (by decide)
  exact ⟨h1.1.trans (by decide), h1.2.2.2.2.1, h2⟩

/-- C3: when the asset-upload step of `publish_pack` fails after the
release was created, the orchestrator attempts `delete_release` as a
best-effort rollback, the outcome of that rollback never changes the
result, and the error reported to the caller is the original upload
error. -/
theorem C3_upload_failure_rollback (env : PublishEnv) (req : PublishRequest)
    (store : RateStore) (bytes : List Nat) (tok hurl huu e : String)
    (hv : verify_plgn_client env.userAgent = true)
    (hr : (checkRateLimit store env.clientIp "registry_publish" 10 3600 env.now).1 = true)
    (hd : env.decodeResult = some bytes)
    (ht : env.githubToken = some tok)
    (hc : env.createResult = .ok hurl huu)
    (hf : uploadFailMsg env = some e) :
    (publishPack env req store).1 = .error (.assetUploadFailed e) ∧
    Action.deleteRelease ∈ (publishPack env req store).2.2 ∧
    (∀ b, publishPack { env with deleteReleaseFails := b } req store =
      publishPack env req store) := by
  have hind : ∀ b, publishPack { env with deleteReleaseFails := b } req store =
      publishPack env req store := by
    intro b
    cases env
    rfl
  have hmain : (publishPack env req store).1 = .error (.assetUploadFailed e) ∧
      Action.deleteRelease ∈ (publishPack env req store).2.2 := by
    cases hu : env.uploadAssetExn with
    | some m =>
      have hm : m = e := by simpa [uploadFailMsg, hu] using hf
      subst hm
      constructor
      · simp [publishPack, hv, hr, hd, ht, hc, hu]
      · simp [publishPack, hv, hr, hd, ht, hc, hu]
    | none =>
      by_cases hps : env.postStatus = 200 ∨ env.postStatus = 201
      · exfalso
        simp [uploadFailMsg, hu, hps] at hf
      · have he : ("Asset upload failed: " ++ env.postText) = e := by
          simpa [uploadFailMsg, hu, hps] using hf
        subst he
        constructor
        · simp [publishPack, hv, hr, hd, ht, hc, hu, hps]
        · simp [publishPack, hv, hr, hd, ht, hc, hu, hps]
  exact ⟨hmain.1, hmain.2, hind⟩

/-- Witness for C3: a concrete publish whose asset upload raises "boom"
ends in the asset-upload failure carrying "boom" and attempts the
release rollback. -/
theorem C3_upload_failure_rollback_witness :
    (publishPack { sampleEnv with uploadAssetExn := some "boom" }
      sampleReq emptyRateStore).1 = .error (.assetUploadFailed "boom") ∧
    Action.deleteRelease ∈ (publishPack { sampleEnv with uploadAssetExn := some "boom" }
      sampleReq emptyRateStore).2.2 := by
  have h := C3_upload_failure_rollback { sampleEnv with uploadAssetExn := some "boom" }
    sampleReq emptyRateStore [1, 2, 3, 4, 5] "t" "https://rel" "https://up" "boom"
    (by decide) (by decide) rfl rfl rfl rfl
  exact ⟨h.1, h.2.1⟩

/-- C4: when the release tag already exists (the creation exception
message names an existing tag), `publish_pack` fails with the 409
Conflict outcome, distinguishable from the generic failure variants, and
never writes the registry index in that run. -/
theorem C4_conflict_on_existing_tag (env : PublishEnv) (req : PublishRequest)
    (store : RateStore) (bytes : List Nat) (tok msg : String)
    (hv : verify_plgn_client env.userAgent = true)
    (hr : (checkRateLimit store env.clientIp "registry_publish" 10 3600 env.now).1 = true)
    (hd : env.decodeResult = some bytes)
    (ht : env.githubToken = some tok)
    (hc : env.createResult = .exn msg)
    (hm : isAlreadyExistsMsg msg = true) :
    (publishPack env req store).1 =
      .error (.releaseConflict (tagOf req.name req.version)) ∧
    (PublishError.releaseConflict (tagOf req.name req.version)).httpStatus = 409 ∧
    (∀ es m, Action.writeIndex es m ∉ (publishPack env req store).2.2) ∧
    (∀ tg m, PublishError.releaseConflict tg ≠ .publishFailed m ∧
      PublishError.releaseConflict tg ≠ .assetUploadFailed m ∧
      PublishError.releaseConflict tg ≠ .indexUpdateFailed m ∧
      PublishError.releaseConflict tg ≠ .serverConfig) := by
  refine ⟨?_, rfl, ?_, ?_⟩
  · simp [publishPack, hv, hr, hd, ht, hc, hm]
  · intro es m
    simp [publishPack, hv, hr, hd, ht, hc, hm]
  · intro tg m
    exact ⟨by simp, by simp, by simp, by simp⟩

/-- Witness for C4: a creation exception whose message contains
"already_exists" yields the 409 conflict for demo@1.0.0 and no index
write. -/
theorem C4_conflict_on_existing_tag_witness :
    (publishPack { sampleEnv with createResult := .exn "Validation Failed: already_exists" }
      sampleReq emptyRateStore).1 =
      .error (.releaseConflict (tagOf sampleReq.name sampleReq.version)) ∧
    (∀ es m, Action.writeIndex es m ∉
      (publishPack { sampleEnv with createResult := .exn "Validation Failed: already_exists" }
        sampleReq emptyRateStore).2.2) := by
  have h := C4_conflict_on_existing_tag
    { sampleEnv with createResult := .exn "Validation Failed: already_exists" }
    sampleReq emptyRateStore [1, 2, 3, 4, 5] "t" "Validation Failed: already_exists"
    (by decide) (by decide) rfl rfl rfl (by decide)
  exact ⟨h.1, h.2.2.1⟩

/-- C6: for fixed decoded tarball bytes, the checksum is the hash of
exactly those bytes, computed once and reused unchanged in the release
notes, in the registry entry written to the index, and in the checksum
field of the success response. -/
theorem C6_checksum_reuse (env : PublishEnv) (req : PublishRequest)
    (store : RateStore) (bytes : List Nat) (tok hurl huu : String)
    (hv : verify_plgn_client env.userAgent = true)
    (hr : (checkRateLimit store env.clientIp "registry_publish" 10 3600 env.now).1 = true)
    (hd : env.decodeResult = some bytes)
    (ht : env.githubToken = some tok)
    (hc : env.createResult = .ok hurl huu)
    (hu : env.uploadAssetExn = none)
    (hs : env.postStatus = 200 ∨ env.postStatus = 201)
    (hw : env.writeExn = none) :
    (publishPack env req store).1 = .ok
      { status := "success", url := hurl, version := req.version,
        checksum := env.hash bytes, downloadUrl := env.postDownloadUrl } ∧
    Action.createRelease (tagOf req.name req.version)
      (req.name ++ " v" ++ req.version)
      (releaseNotes req.name req.version (env.hash bytes) req.author)
      ∈ (publishPack env req store).2.2 ∧
    containsSub (releaseNotes req.name req.version (env.hash bytes) req.author).toList
      (env.hash bytes).toList = true ∧
    (∃ es, Action.writeIndex es ("Publish " ++ tagOf req.name req.version)
        ∈ (publishPack env req store).2.2 ∧
      ∃ en, en ∈ es ∧ en.name = req.name ∧ en.version = req.version ∧
        en.checksum = env.hash bytes ∧ en.downloadUrl = env.postDownloadUrl) := by
  refine ⟨?_, ?_, ?_, ?_⟩
  · simp [publishPack, hv, hr, hd, ht, hc, hu, hs, hw]
  · simp [publishPack, hv, hr, hd, ht, hc, hu, hs, hw]
  · have hsplit : (releaseNotes req.name req.version (env.hash bytes) req.author).toList =
        ("Pack release for " ++ req.name ++ " v" ++ req.version ++
          "\n\nChecksum (SHA256): `").toList ++
        ((env.hash bytes).toList ++ ("`\nAuthor: " ++ req.author).toList) := by
      simp [releaseNotes, toList_append, List.append_assoc]
    rw [hsplit]
    exact containsSub_append _ _ _
  · refine ⟨upsertEntry
      (match env.readResult with
        | some (es, _) => es
        | none => [])
      ⟨req.name, req.version, req.languages, req.description,
        env.postDownloadUrl, env.hash bytes, env.publishedAt, req.author⟩, ?_, ?_⟩
    · simp [publishPack, hv, hr, hd, ht, hc, hu, hs, hw]
    · exact ⟨_, self_mem_upsert _ _, rfl, rfl, rfl, rfl⟩

/-- Witness for C6: the fully successful sample publish returns the
checksum of the decoded bytes in the success body. -/
theorem C6_checksum_reuse_witness :
    (publishPack sampleEnv sampleReq emptyRateStore).1 = .ok
      { status := "success", url := "https://rel", version := "1.0.0",
        checksum := "deadbeef", downloadUrl := "https://dl" } := by
  have h := C6_checksum_reuse sampleEnv sampleReq emptyRateStore
    [1, 2, 3, 4, 5] "t" "https://rel" "https://up"
    (by decide) (by decide) rfl rfl rfl rfl (Or.inr rfl) rfl
  exact h.1

/-- C7: when the index-update step fails after the release and asset
were published, no rollback is performed (no delete-release action in
the trace) and the reported failure is the distinct index-update-failed
variant, distinguishable from full publish failures. -/
theorem C7_index_update_failure (env : PublishEnv) (req : PublishRequest)
    (store : RateStore) (bytes : List Nat) (tok hurl huu m : String)
    (hv : verify_plgn_client env.userAgent = true)
    (hr : (checkRateLimit store env.clientIp "registry_publish" 10 3600 env.now).1 = true)
    (hd : env.decodeResult = some bytes)
    (ht : env.githubToken = some tok)
    (hc : env.createResult = .ok hurl huu)
    (hu : env.uploadAssetExn = none)
    (hs : env.postStatus = 200 ∨ env.postStatus = 201)
    (hw : env.writeExn = some m) :
    (publishPack env req store).1 = .error (.indexUpdateFailed m) ∧
    Action.deleteRelease ∉ (publishPack env req store).2.2 ∧
    (∀ m2, PublishError.indexUpdateFailed m ≠ .assetUploadFailed m2 ∧
      PublishError.indexUpdateFailed m ≠ .publishFailed m2 ∧
      (∀ tg, PublishError.indexUpdateFailed m ≠ .releaseConflict tg)) := by
  refine ⟨?_, ?_, ?_⟩
  · simp [publishPack, hv, hr, hd, ht, hc, hu, hs, hw]
  · simp [publishPack, hv, hr, hd, ht, hc, hu, hs, hw]
  · intro m2
    exact ⟨by simp, by simp, fun tg => by simp⟩

/-- Witness for C7: a registry write failure after a successful upload
reports the index-update failure and performs no rollback. -/
theorem C7_index_update_failure_witness :
    (publishPack { sampleEnv with writeExn := some "merge conflict" }
      sampleReq emptyRateStore).1 = .error (.indexUpdateFailed "merge conflict") ∧
    Action.deleteRelease ∉ (publishPack { sampleEnv with writeExn := some "merge conflict" }
      sampleReq emptyRateStore).2.2 := by
  have h := C7_index_update_failure { sampleEnv with writeExn := some "merge conflict" }
    sampleReq emptyRateStore [1, 2, 3, 4, 5] "t" "https://rel" "https://up" "merge conflict"
    (by decide) (by decide) rfl rfl rfl rfl (Or.inr rfl) rfl
  exact ⟨h.1, h.2.1⟩

/-- C9: on the publish route the identity check precedes the rate-limit
check: an unverified request is rejected with the invalid-client error,
performs no external action, and leaves the rate-limit store untouched
at every key, so it never appends a timestamp to any event log. -/
theorem C9_verify_before_rate_limit (env : PublishEnv) (req : PublishRequest)
    (store : RateStore) (hv : verify_plgn_client env.userAgent = false) :
    publishPack env req store =
      (.error .invalidClient, store, ([] : List Action)) ∧
    ∀ k, (publishPack env req store).2.1 k = store k := by
  have h : publishPack env req store = (.error .invalidClient, store, ([] : List Action)) := by
    simp [publishPack, hv]
  exact ⟨h, fun k => by rw [h]⟩

/-- Witness for C9: an unrecognized user agent is rejected before the
rate limiter runs, leaving the store unchanged. -/
theorem C9_verify_before_rate_limit_witness :
    publishPack { sampleEnv with userAgent := some "curl/7.0" } sampleReq emptyRateStore =
      (.error .invalidClient, emptyRateStore, ([] : List Action)) :=
  (C9_verify_before_rate_limit { sampleEnv with userAgent := some "curl/7.0" }
    sampleReq emptyRateStore (by decide)).1

end PlgnProxy
